import Mathlib

/-!
Verification of the lab-automation consultant core (inventor_agent.py and
inventor_agent2.py): the solution knowledge base, the requirement records,
the domain normalizer, the matcher and the two report renderers, together
with theorems settling the specification claims about them.
-/

namespace LabAutomation

/-! ## Character-level primitives modelling the Python string methods used
by the source (str.lower, str.strip, str.replace with a single-space
pattern).  The models cover the ASCII behaviour of these methods, which is
the behaviour exercised by the program. -/

/-- Model of Python str.lower on one character (ASCII range): an uppercase
ASCII letter (code 65-90) is shifted by 32, anything else is unchanged. -/
def lowerChar (c : Char) : Char :=
  if 65 ≤ c.toNat ∧ c.toNat ≤ 90 then Char.ofNat (c.toNat + 32) else c

/-- The whitespace characters stripped by Python str.strip (ASCII part). -/
def isPyWS (c : Char) : Bool :=
  c = ' ' || c = '\t' || c = '\n' || c = '\r' || c = '\x0b' || c = '\x0c'

/-- Model of Python str.strip at the character-list level: drop whitespace
from both ends. -/
def pyStrip (l : List Char) : List Char :=
  ((l.dropWhile (fun c => isPyWS c)).reverse.dropWhile (fun c => isPyWS c)).reverse

/-- Model of Python str.replace(" ", "_") on one character. -/
def spaceToUnderscore (c : Char) : Char :=
  if c = ' ' then '_' else c

/-- The domain normalizer of the source, the inline expression
requirements.problem_domain.lower().strip().replace(" ", "_") in
find_automation_solution. -/
def normalizeDomain (s : String) : String :=
  ⟨(pyStrip (s.data.map lowerChar)).map spaceToUnderscore⟩

/-! ## The data model -/

/-- One entry of SOLUTION_KNOWLEDGE_BASE (a solution descriptor). -/
structure Solution where
  solution_name : String
  description : String
  example_vendors : List String
  avg_budget : String
  key_requirements : List String
deriving DecidableEq, Repr

/-- The structured data form for a user's lab automation needs
(pydantic model LabRequirements in inventor_agent.py).  samples_per_day is
a Python int, modelled as an unbounded integer. -/
structure LabRequirements where
  problem_domain : String
  samples_per_day : Int
  current_process : String
  budget : Option String
deriving DecidableEq, Repr

/-- A structured User Requirements Specification for an automated weighing
station (pydantic model WeighingStationURS in inventor_agent2.py). -/
structure WeighingStationURS where
  project_scope : String
  throughput : String
  weighing_specs : String
  chemical_types : List String
  labware_containers : List String
  identification_labeling : String
  data_handling : String
  workflow_use_cases : List String
deriving DecidableEq, Repr

/-- First solution of the weighing domain in SOLUTION_KNOWLEDGE_BASE. -/
def APL01 : Solution :=
  { solution_name := "Automated Weighing Station (URS APL01)",
    description := "An automated or semi-automated station to replace manual weighing[cite: 515]. Handles weighing compounds from 0.2mg - 100g [cite: 527] and supports one-to-many, one-to-one, and many-to-one workflows[cite: 541].",
    example_vendors := ["(Vendor research needed)"],
    avg_budget := "$70,000 - $200,000",
    key_requirements :=
      ["Handle solids (powders, flakes, etc) and liquids [cite: 529]",
       "Read/produce barcodes [cite: 533]",
       "Throughput: 84+ compounds/day [cite: 535]",
       "Import/export worklists (csv, xml) [cite: 539]"] }

/-- Second solution of the weighing domain in SOLUTION_KNOWLEDGE_BASE. -/
def APL02 : Solution :=
  { solution_name := "Manual Computer-Assisted Weighing Station (URS APL02)",
    description := "A simpler station that assists a human user[cite: 548, 571]. It displays target weights, automatically records the weight, and steps through a compound list[cite: 585].",
    example_vendors := ["(Vendor research needed)"],
    avg_budget := "$10,000 - $40,000",
    key_requirements :=
      ["Assist user by displaying target weight [cite: 585]",
       "Read barcodes from source/destination containers [cite: 589]",
       "Import/export worklists (csv) [cite: 593, 595]"] }

/-- First solution of the sample_handling_logistics domain in
SOLUTION_KNOWLEDGE_BASE. -/
def APL07 : Solution :=
  { solution_name := "Logistics Robot 1: Tube Handling & Weighing (URS APL07)",
    description := "A logistics robot to fix the bottleneck of manually handling 23,000+ tubes/year[cite: 353, 372]. It automates labeling, barcoding, weighing, and pick & place operations[cite: 894, 920].",
    example_vendors := ["(Vendor research needed)"],
    avg_budget := "$150,000 - $300,000",
    key_requirements :=
      ["Pick & place tubes between different rack types (e.g., rack80 to Genevac racks) [cite: 924]",
       "Weigh and barcode >25,000 tubes/year [cite: 943]",
       "Weigh rack of 24 tubes in < 20 min [cite: 943]",
       "Controlled via API / worklists [cite: 928]"] }

/-- Second solution of the sample_handling_logistics domain in
SOLUTION_KNOWLEDGE_BASE. -/
def APL08 : Solution :=
  { solution_name := "Logistics Robot 2: Liquid Handling (URS APL08)",
    description := "A logistics robot focused on liquid handling steps for synthesis and purification[cite: 962].",
    example_vendors := ["(Vendor research needed)"],
    avg_budget := "$100,000 - $250,000",
    key_requirements :=
      ["Aspirate/dispense volumes from 5µl to 30ml [cite: 988]",
       "Pool fractions from rack-to-rack [cite: 990]",
       "Redissolve dried fractions in racks [cite: 990]",
       "Controlled via API / worklists [cite: 994]"] }

/-- The knowledge base of inventor_agent.py: a dict literal mapping
problem-domain keys to lists of solutions, modelled as an association list
in insertion order. -/
def SOLUTION_KNOWLEDGE_BASE : List (String × List Solution) :=
  [("weighing", [APL01, APL02]),
   ("sample_handling_logistics", [APL07, APL08])]

/-! ## Record construction (the pydantic validation gate)

Pydantic raises ValidationError exactly when a required field (declared
with Field(...)) is absent from the construction call; the declared types
impose no further constraint: any int (including a negative one), any str
(including the empty string) and any list (including the empty list) are
accepted.  An absent argument is modelled as none. -/

/-- Construction call for LabRequirements: three required fields, one
optional field defaulting to None. -/
def construct_lab_requirements (problem_domain : Option String)
    (samples_per_day : Option Int) (current_process : Option String)
    (budget : Option String) : Except String LabRequirements :=
  match problem_domain, samples_per_day, current_process with
  | some pd, some spd, some cp => Except.ok ⟨pd, spd, cp, budget⟩
  | _, _, _ => Except.error "ValidationError"

/-- Construction call for WeighingStationURS: eight required fields. -/
def construct_weighing_station_urs (project_scope : Option String)
    (throughput : Option String) (weighing_specs : Option String)
    (chemical_types : Option (List String))
    (labware_containers : Option (List String))
    (identification_labeling : Option String) (data_handling : Option String)
    (workflow_use_cases : Option (List String)) :
    Except String WeighingStationURS :=
  match project_scope, throughput, weighing_specs, chemical_types,
        labware_containers, identification_labeling, data_handling,
        workflow_use_cases with
  | some a, some b, some c, some d, some e, some f, some g, some h =>
      Except.ok ⟨a, b, c, d, e, f, g, h⟩
  | _, _, _, _, _, _, _, _ => Except.error "ValidationError"

/-! ## The matcher and the triage report renderer -/

/-- A Python for-loop accreting report += f(x) over a list, modelled as a
concatenation of the pieces in order. -/
def concatMapStr (f : α → String) : List α → String
  | [] => ""
  | x :: xs => f x ++ concatMapStr f xs

/-- The no-match acknowledgment sentence of find_automation_solution. -/
def noMatchMessage (domain : String) : String :=
  "I have understood your need for '" ++ domain ++
    "', but I do not have a pre-built solution for that in my database."

/-- One recommended-solution block of the triage report. -/
def renderSolutionBlock (sol : Solution) : String :=
  "### ✅ Recommended Solution: " ++ sol.solution_name ++ "\n" ++
    ("**What it does:** " ++ sol.description ++ "\n") ++
    ("**Estimated Budget:** " ++ sol.avg_budget ++ "\n") ++
    "**Key Requirements (from URS):**\n" ++
    concatMapStr (fun req => "* " ++ req ++ "\n") sol.key_requirements ++
    "---\n"

/-- The matched-case summary report built by find_automation_solution. -/
def matchedReport (domain : String) (throughput : Int)
    (current_process : String) (possible_solutions : List Solution) : String :=
  "--- 🤖 AI Consultant: Solution Proposal --- \n\n" ++
    ("Based on your bottleneck with **" ++ domain ++ "** (processing **" ++
      toString throughput ++ " samples/day** using a '" ++ current_process ++
      "' process), I have identified the following automation solutions from my URS knowledge base:\n\n") ++
    concatMapStr renderSolutionBlock possible_solutions ++
    "\nThis proposal is a starting point. We can now dive deeper into specific products."

/-- find_automation_solution of inventor_agent.py: normalize the domain,
look it up in the knowledge base, and render either the no-match sentence
or the matched summary report. -/
def find_automation_solution (requirements : LabRequirements) : String :=
  let domain := normalizeDomain requirements.problem_domain
  let throughput := requirements.samples_per_day
  match SOLUTION_KNOWLEDGE_BASE.lookup domain with
  | none => noMatchMessage domain
  | some possible_solutions =>
      matchedReport domain throughput requirements.current_process possible_solutions

/-- Python dict subscription KB[key], a fallible operation (KeyError when
the key is absent). -/
def dictGetSolutions (kb : List (String × List Solution)) (key : String) :
    Except String (List Solution) :=
  match kb.lookup key with
  | some v => Except.ok v
  | none => Except.error "KeyError"

/-- find_automation_solution with the fallibility of its one partial
operation (the dict subscription guarded by the membership test) made
explicit, to state that its error branch is unreachable. -/
def find_automation_solutionE (requirements : LabRequirements) :
    Except String String :=
  let domain := normalizeDomain requirements.problem_domain
  let throughput := requirements.samples_per_day
  if (SOLUTION_KNOWLEDGE_BASE.lookup domain).isSome = false then
    Except.ok (noMatchMessage domain)
  else do
    let possible_solutions ← dictGetSolutions SOLUTION_KNOWLEDGE_BASE domain
    Except.ok (matchedReport domain throughput requirements.current_process
      possible_solutions)

/-- get_lab_requirements of inventor_agent.py: construct the record and
trigger the solution search. -/
def get_lab_requirements (problem_domain : String) (samples_per_day : Int)
    (current_process : String) (budget : Option String) : String :=
  find_automation_solution ⟨problem_domain, samples_per_day, current_process, budget⟩

/-! ## The specification report renderer -/

/-- generate_weighing_station_urs of inventor_agent2.py: the fixed
eight-section URS document built from a WeighingStationURS. -/
def generate_weighing_station_urs (urs_data : WeighingStationURS) : String :=
  "--- 📋 AI Consultant: Generated URS Document (APL01-Draft) --- \n\n" ++
    "Thank you. Based on our interview, I have drafted the following User Requirements Specification (URS) for the new **Automated Weighing Station**.\n\n" ++
    "### 1. Project Scope\n" ++
    ("* " ++ urs_data.project_scope ++ "\n\n") ++
    "### 2. Throughput\n" ++
    ("* " ++ urs_data.throughput ++ " [cite: 562]\n\n") ++
    "### 3. Weighing Specifications\n" ++
    ("* **Range & Precision:** " ++ urs_data.weighing_specs ++ " [cite: 554]\n\n") ++
    "### 4. Categories of Chemicals\n" ++
    "The system must handle: [cite: 556]\n" ++
    concatMapStr (fun item => "* " ++ item ++ "\n") urs_data.chemical_types ++
    "\n" ++
    "### 5. Labware\n" ++
    "The system must handle: [cite: 558]\n" ++
    concatMapStr (fun item => "* " ++ item ++ "\n") urs_data.labware_containers ++
    "\n" ++
    "### 6. Identification & Labeling\n" ++
    ("* " ++ urs_data.identification_labeling ++ " [cite: 560]\n\n") ++
    "### 7. Input/Output Data\n" ++
    ("* " ++ urs_data.data_handling ++ " [cite: 566]\n\n") ++
    "### 8. Workflows / Use Cases\n" ++
    "The system must support: [cite: 568]\n" ++
    concatMapStr (fun item => "* " ++ item ++ "\n") urs_data.workflow_use_cases ++
    "\n---\n" ++
    "This draft can now be used for the 'Solution Finding' phase."

/-! ## Substring-search primitives (executable, used to state containment
and ordering facts about rendered reports) -/

/-- Whether the first list is an initial segment of the second. -/
def listStartsWith : List Char → List Char → Bool
  | [], _ => true
  | _ :: _, [] => false
  | a :: as, b :: bs => a == b && listStartsWith as bs

/-- The suffix that follows the first occurrence of the pattern, or none
when the pattern does not occur. -/
def dropAfterFirst (pat : List Char) : List Char → Option (List Char)
  | [] => if pat.isEmpty then some [] else none
  | c :: rest =>
    if listStartsWith pat (c :: rest) then some ((c :: rest).drop pat.length)
    else dropAfterFirst pat rest

/-- Whether the pattern occurs somewhere in the string. -/
def containsStr (s pat : String) : Bool :=
  (dropAfterFirst pat.data s.data).isSome

/-- Whether all given patterns occur in the list, in order and without
overlap. -/
def containsInOrderFrom : List Char → List String → Bool
  | _, [] => true
  | l, p :: ps =>
    match dropAfterFirst p.data l with
    | none => false
    | some rest => containsInOrderFrom rest ps

/-- Whether all given patterns occur in the string, in order. -/
def containsInOrder (s : String) (pats : List String) : Bool :=
  containsInOrderFrom s.data pats

/-! ## Line decomposition -/

/-- Split a character list at every newline; the result always has one
more entry than the number of newlines. -/
def splitLines (l : List Char) : List (List Char) :=
  l.foldr
    (fun c r =>
      if c = '\n' then [] :: r
      else
        match r with
        | [] => [[c]]
        | h :: t => (c :: h) :: t)
    [[]]

/-- The lines of a string. -/
def linesOf (s : String) : List String :=
  (splitLines s.data).map (fun l => ⟨l⟩)

/-- No character of the string is a newline. -/
def NoNl (s : String) : Prop := ∀ c ∈ s.data, c ≠ '\n'

/-! ## Ordered occurrence of a list of patterns in a text -/

/-- InOrder l ps holds when the patterns ps occur in l, in order, at
pairwise disjoint positions. -/
inductive InOrder : List Char → List (List Char) → Prop
  | nil (l : List Char) : InOrder l []
  | cons (a p rest : List Char) (ps : List (List Char)) :
      InOrder rest ps → InOrder (a ++ (p ++ rest)) (p :: ps)

/-- The patterns one recommended-solution block must present, in order:
the descriptor's name, its description, its budget range, and each key
requirement as a bullet line of its own. -/
def blockPats (sol : Solution) : List (List Char) :=
  sol.solution_name.data :: sol.description.data :: sol.avg_budget.data ::
    sol.key_requirements.map (fun r => ("* " ++ r ++ "\n").data)

/-- The eight section header lines of the URS document, in order. -/
def sectionHeaders : List String :=
  ["### 1. Project Scope", "### 2. Throughput", "### 3. Weighing Specifications",
   "### 4. Categories of Chemicals", "### 5. Labware",
   "### 6. Identification & Labeling", "### 7. Input/Output Data",
   "### 8. Workflows / Use Cases"]

/-- Every field value of the record is free of newline characters. -/
def SpecNoNl (u : WeighingStationURS) : Prop :=
  NoNl u.project_scope ∧ NoNl u.throughput ∧ NoNl u.weighing_specs ∧
    (∀ i ∈ u.chemical_types, NoNl i) ∧ (∀ i ∈ u.labware_containers, NoNl i) ∧
    NoNl u.identification_labeling ∧ NoNl u.data_handling ∧
    (∀ i ∈ u.workflow_use_cases, NoNl i)

instance (s : String) : Decidable (NoNl s) := by
  unfold NoNl; infer_instance

instance (u : WeighingStationURS) : Decidable (SpecNoNl u) := by
  unfold SpecNoNl; infer_instance

/-! ## Reference definitions for the Domain Normalizer refinement claim -/

/-- Some character of the list is not a space. -/
def hasNonSpace (l : List Char) : Bool := l.any (fun c => c != ' ')

/-- Replace a space character by an underscore only when it is internal:
some non-space character stands somewhere before it (among the characters
already seen) and some non-space character somewhere after it. -/
def replaceInternalAux (seen : List Char) : List Char → List Char
  | [] => []
  | c :: rest =>
    (if c == ' ' && hasNonSpace seen && hasNonSpace rest then '_' else c) ::
      replaceInternalAux (seen ++ [c]) rest

/-- Reference normalizer built from the specification's words, to be
compared with the source's normalizeDomain: the input lowercased, stripped
of leading and trailing whitespace, with every internal space character
replaced by an underscore. -/
def specNormalize (s : String) : String :=
  ⟨replaceInternalAux [] (pyStrip (s.data.map lowerChar))⟩

theorem InOrder.append_left (a : List Char) {s : List Char}
    {ps : List (List Char)} (h : InOrder s ps) : InOrder (a ++ s) ps := by
  cases h with
  | nil => exact InOrder.nil _
  | cons b p rest ps h =>
      have := InOrder.cons (a ++ b) p rest ps h
      simpa [List.append_assoc] using this

theorem InOrder.append {s t : List Char} {ps qs : List (List Char)}
    (hs : InOrder s ps) (ht : InOrder t qs) : InOrder (s ++ t) (ps ++ qs) := by
  induction hs with
  | nil l => exact ht.append_left l
  | cons a p rest ps h ih =>
      have := InOrder.cons a p (rest ++ t) (ps ++ qs) ih
      simpa [List.append_assoc] using this

theorem inOrder_of_eq {s s' : List Char} {ps : List (List Char)}
    (h : InOrder s ps) (e : s' = s) : InOrder s' ps := e ▸ h

/-! ## Character-level lemmas about the normalizer -/

theorem data_mk (l : List Char) : (String.mk l).data = l := rfl

theorem char_toNat_ofNat (n : Nat) (h : n.isValidChar) :
    (Char.ofNat n).toNat = n := by
  unfold Char.ofNat
  rw [dif_pos h]
  rfl

/-- The result of lowerChar is never an uppercase ASCII letter. -/
theorem lowerChar_not_upper (c : Char) :
    ¬(65 ≤ (lowerChar c).toNat ∧ (lowerChar c).toNat ≤ 90) := by
  unfold lowerChar
  split_ifs with h
  · have hv : (c.toNat + 32).isValidChar := Or.inl (by omega)
    rw [char_toNat_ofNat _ hv]
    omega
  · exact h

theorem lowerChar_eq_self_of_not_upper (d : Char)
    (h : ¬(65 ≤ d.toNat ∧ d.toNat ≤ 90)) : lowerChar d = d := by
  unfold lowerChar
  rw [if_neg h]

theorem lowerChar_idem (c : Char) : lowerChar (lowerChar c) = lowerChar c :=
  lowerChar_eq_self_of_not_upper _ (lowerChar_not_upper c)

theorem spaceToUnderscore_idem (c : Char) :
    spaceToUnderscore (spaceToUnderscore c) = spaceToUnderscore c := by
  by_cases h : c = ' '
  · subst h; decide
  · simp [spaceToUnderscore, h]

theorem spaceToUnderscore_not_ws (d : Char) (h : isPyWS d = false) :
    isPyWS (spaceToUnderscore d) = false := by
  unfold spaceToUnderscore
  split_ifs with e
  · subst e; simp [isPyWS] at h
  · exact h

theorem mem_of_mem_pyStrip {a : Char} {l : List Char} (h : a ∈ pyStrip l) :
    a ∈ l := by
  unfold pyStrip at h
  rw [List.mem_reverse] at h
  have h2 := List.Sublist.mem h (List.dropWhile_sublist _)
  rw [List.mem_reverse] at h2
  exact List.Sublist.mem h2 (List.dropWhile_sublist _)

/-- Every character of a normalized domain key is either an underscore or
the image of lowerChar; in particular it is never an uppercase ASCII
letter. -/
theorem normalizeDomain_not_upper (s : String) :
    ∀ c ∈ (normalizeDomain s).data, ¬(65 ≤ c.toNat ∧ c.toNat ≤ 90) := by
  intro c hc
  simp only [normalizeDomain, data_mk] at hc
  obtain ⟨d, hd, rfl⟩ := List.mem_map.1 hc
  obtain ⟨e, _, rfl⟩ := List.mem_map.1 (mem_of_mem_pyStrip hd)
  unfold spaceToUnderscore
  split_ifs with h
  · decide
  · exact lowerChar_not_upper e

theorem head_dropWhile_false {α : Type} (p : α → Bool) (l : List α) :
    ∀ c, (l.dropWhile p).head? = some c → p c = false := by
  induction l with
  | nil => intro c h; simp [List.dropWhile] at h
  | cons a t ih =>
      intro c h
      rw [List.dropWhile_cons] at h
      by_cases hp : p a = true
      · rw [if_pos hp] at h; exact ih c h
      · rw [if_neg hp] at h
        simp only [List.head?_cons, Option.some.injEq] at h
        subst h
        exact Bool.not_eq_true _ ▸ hp

theorem pyStrip_getLast?_not_ws (l : List Char) :
    ∀ c, (pyStrip l).getLast? = some c → isPyWS c = false := by
  intro c h
  unfold pyStrip at h
  rw [List.getLast?_reverse] at h
  exact head_dropWhile_false _ _ c h

theorem mem_of_getLast?_eq {α : Type} {l : List α} {a : α}
    (h : l.getLast? = some a) : a ∈ l := by
  induction l with
  | nil => simp at h
  | cons b t ih =>
      cases t with
      | nil =>
          simp only [List.getLast?_singleton, Option.some.injEq] at h
          subst h; exact List.mem_cons_self _ _
      | cons b' t' =>
          rw [List.getLast?_cons_cons] at h
          exact List.mem_cons_of_mem _ (ih h)

theorem pyStrip_head?_not_ws (l : List Char) :
    ∀ c, (pyStrip l).head? = some c → isPyWS c = false := by
  intro c h
  unfold pyStrip at h
  rw [List.head?_reverse] at h
  obtain ⟨t, ht⟩ :=
    List.dropWhile_suffix (l := (l.dropWhile (fun c => isPyWS c)).reverse)
      (fun c => isPyWS c)
  have hne :
      List.dropWhile (fun c => isPyWS c)
        (l.dropWhile (fun c => isPyWS c)).reverse ≠ [] := by
    intro e; rw [e] at h; simp at h
  rw [← List.getLast?_append_of_ne_nil t hne, ht, List.getLast?_reverse] at h
  exact head_dropWhile_false _ _ c h

theorem pyStrip_eq_self (l : List Char)
    (hh : ∀ c, l.head? = some c → isPyWS c = false)
    (hl : ∀ c, l.getLast? = some c → isPyWS c = false) : pyStrip l = l := by
  unfold pyStrip
  have h1 : l.dropWhile (fun c => isPyWS c) = l := by
    cases l with
    | nil => rfl
    | cons a t =>
        rw [List.dropWhile_cons, if_neg]
        simp [hh a rfl]
  rw [h1]
  have h2 : l.reverse.dropWhile (fun c => isPyWS c) = l.reverse := by
    cases hr : l.reverse with
    | nil => rfl
    | cons a t =>
        rw [List.dropWhile_cons, if_neg]
        have ha : l.getLast? = some a := by
          rw [← List.head?_reverse, hr]; rfl
        simp [hl a ha]
  rw [h2, List.reverse_reverse]

theorem map_eq_self_of_mem {α : Type} {l : List α} {f : α → α}
    (h : ∀ a ∈ l, f a = a) : l.map f = l :=
  (List.map_congr_left (g := id) h).trans (List.map_id l)

/-! ## Claim C1 -/

/-- Claim C1, counterexample to the claim as stated: constructing a
TriageRecord with samples_per_day equal to -5 does not fail, it produces a
record. -/
theorem c1_counterexample :
    construct_lab_requirements (some "weighing") (some (-5)) (some "manual weighing") none =
      Except.ok ⟨"weighing", -5, "manual weighing", none⟩ := rfl

/-- Claim C1 (amended): construction does not validate the sign of
samples_per_day; whenever the three required fields are supplied, a record
is produced even for a negative samples_per_day, and a ValidationError is
surfaced only when a required field is missing. -/
theorem c1_negative_samples_accepted :
    (∀ (pd : String) (spd : Int) (cp : String) (b : Option String), spd < 0 →
      construct_lab_requirements (some pd) (some spd) (some cp) b =
        Except.ok ⟨pd, spd, cp, b⟩) ∧
    (∀ (pd : Option String) (cp : Option String) (b : Option String),
      construct_lab_requirements pd none cp b = Except.error "ValidationError") := by
  constructor
  · intro pd spd cp b _
    rfl
  · intro pd cp b
    cases pd <;> rfl

/-- Witness for claim C1's amended theorem at samples_per_day = -7. -/
theorem c1_witness :
    ((-7 : Int) < 0) ∧
      construct_lab_requirements (some "weighing") (some (-7)) (some "manual weighing") none =
        Except.ok ⟨"weighing", -7, "manual weighing", none⟩ :=
  ⟨by decide, c1_negative_samples_accepted.1 "weighing" (-7) "manual weighing" none (by decide)⟩

/-! ## Claim C2 -/

/-- Claim C2, counterexample to the claim as stated: construction calls in
which required string fields are the empty string (and required sequences
are empty) succeed for both record types instead of failing. -/
theorem c2_counterexample :
    construct_lab_requirements (some "") (some 84) (some "") none =
      Except.ok ⟨"", 84, "", none⟩ ∧
    construct_weighing_station_urs (some "") (some "") (some "") (some [])
      (some []) (some "") (some "") (some []) =
      Except.ok ⟨"", "", "", [], [], "", "", []⟩ :=
  ⟨rfl, rfl⟩

/-- Claim C2 (amended): construction is the single all-or-nothing gate for
presence of required fields only; for both record types, any construction
call with a required field missing fails with a ValidationError and no
record is produced, while any call supplying all required fields (even as
empty strings or empty sequences) produces the record. -/
theorem c2_construction_gate :
    (∀ (pd : Option String) (spd : Option Int) (cp : Option String) (b : Option String),
      (pd = none ∨ spd = none ∨ cp = none) →
      construct_lab_requirements pd spd cp b = Except.error "ValidationError") ∧
    (∀ (pd : String) (spd : Int) (cp : String) (b : Option String),
      construct_lab_requirements (some pd) (some spd) (some cp) b =
        Except.ok ⟨pd, spd, cp, b⟩) ∧
    (∀ (a b c : Option String) (d e : Option (List String)) (f g : Option String)
      (h : Option (List String)),
      (a = none ∨ b = none ∨ c = none ∨ d = none ∨ e = none ∨ f = none ∨
        g = none ∨ h = none) →
      construct_weighing_station_urs a b c d e f g h = Except.error "ValidationError") ∧
    (∀ (a b c : String) (d e : List String) (f g : String) (h : List String),
      construct_weighing_station_urs (some a) (some b) (some c) (some d)
        (some e) (some f) (some g) (some h) = Except.ok ⟨a, b, c, d, e, f, g, h⟩) := by
  refine ⟨?_, fun _ _ _ _ => rfl, ?_, fun _ _ _ _ _ _ _ _ => rfl⟩
  · intro pd spd cp b hmiss
    rcases hmiss with h | h | h <;> subst h
    · rfl
    · cases pd <;> rfl
    · cases pd <;> cases spd <;> rfl
  · intro a b c d e f g h hmiss
    rcases hmiss with h1 | h1 | h1 | h1 | h1 | h1 | h1 | h1 <;> subst h1
    · rfl
    · cases a <;> rfl
    · cases a <;> cases b <;> rfl
    · cases a <;> cases b <;> cases c <;> rfl
    · cases a <;> cases b <;> cases c <;> cases d <;> rfl
    · cases a <;> cases b <;> cases c <;> cases d <;> cases e <;> rfl
    · cases a <;> cases b <;> cases c <;> cases d <;> cases e <;> cases f <;> rfl
    · cases a <;> cases b <;> cases c <;> cases d <;> cases e <;> cases f <;>
        cases g <;> rfl

/-- Witness for claim C2's amended theorem: a call missing
current_process fails, a call missing workflow_use_cases fails. -/
theorem c2_witness :
    ((none : Option String) = none ∨ (some (5 : Int)) = none ∨
      (some "x" : Option String) = none) ∧
    construct_lab_requirements none (some 5) (some "x") none =
      Except.error "ValidationError" ∧
    construct_weighing_station_urs (some "a") (some "b") (some "c")
      (some ["d"]) (some ["e"]) (some "f") (some "g") none =
      Except.error "ValidationError" :=
  ⟨Or.inl rfl,
   c2_construction_gate.1 none (some 5) (some "x") none (Or.inl rfl),
   c2_construction_gate.2.2.1 (some "a") (some "b") (some "c") (some ["d"])
     (some ["e"]) (some "f") (some "g") none
     (Or.inr (Or.inr (Or.inr (Or.inr (Or.inr (Or.inr (Or.inr rfl)))))))⟩

/-! ## Claim C3 -/

theorem dropAfterFirst_eq_none_of_head_not_mem (c : Char) (p l : List Char)
    (h : c ∉ l) : dropAfterFirst (c :: p) l = none := by
  induction l with
  | nil => rfl
  | cons d rest ih =>
      have hcd : (c == d) = false :=
        beq_eq_false_iff_ne.2 (fun e => h (e ▸ List.mem_cons_self d rest))
      simp only [dropAfterFirst, listStartsWith, hcd, Bool.false_and,
        Bool.false_eq_true, if_false]
      exact ih (fun hm => h (List.mem_cons_of_mem _ hm))

theorem not_mem_noMatchMessage (dom : String) (c : Char)
    (hdom : c ∉ dom.data)
    (h1 : c ∉ "I have understood your need for '".data)
    (h2 : c ∉ "', but I do not have a pre-built solution for that in my database.".data) :
    c ∉ (noMatchMessage dom).data := by
  unfold noMatchMessage
  rw [String.data_append, String.data_append]
  intro hmem
  rcases List.mem_append.1 hmem with hmem | hmem
  · rcases List.mem_append.1 hmem with hmem | hmem
    · exact h1 hmem
    · exact hdom hmem
  · exact h2 hmem

theorem not_upper_mem_noMatch (s : String) (c : Char)
    (hc : 65 ≤ c.toNat ∧ c.toNat ≤ 90)
    (h1 : c ∉ "I have understood your need for '".data)
    (h2 : c ∉ "', but I do not have a pre-built solution for that in my database.".data) :
    c ∉ (noMatchMessage (normalizeDomain s)).data :=
  not_mem_noMatchMessage _ c
    (fun hm => normalizeDomain_not_upper s c hm hc) h1 h2

/-- Claim C3: when the normalized problem domain is not a key of the
knowledge base, the matcher produces a no-match outcome: the rendered
output is exactly the single acknowledgment sentence naming the normalized
domain key, and it contains no budget bullet, no key-requirement bullet
and no matched-report block. -/
theorem c3_nomatch_acknowledgment (rec : LabRequirements)
    (h : SOLUTION_KNOWLEDGE_BASE.lookup (normalizeDomain rec.problem_domain) = none) :
    find_automation_solution rec =
      "I have understood your need for '" ++ normalizeDomain rec.problem_domain ++
        "', but I do not have a pre-built solution for that in my database." ∧
    containsStr (find_automation_solution rec) "Estimated Budget" = false ∧
    containsStr (find_automation_solution rec) "Key Requirements" = false ∧
    containsStr (find_automation_solution rec) "Recommended Solution" = false := by
  have hmsg : find_automation_solution rec =
      noMatchMessage (normalizeDomain rec.problem_domain) := by
    simp [find_automation_solution, h]
  have habs : ∀ (c : Char) (p : List Char), 65 ≤ c.toNat → c.toNat ≤ 90 →
      c ∉ "I have understood your need for '".data →
      c ∉ "', but I do not have a pre-built solution for that in my database.".data →
      (dropAfterFirst (c :: p) (find_automation_solution rec).data).isSome = false := by
    intro c p hc1 hc2 hm1 hm2
    rw [hmsg, dropAfterFirst_eq_none_of_head_not_mem c p _
      (not_upper_mem_noMatch rec.problem_domain c ⟨hc1, hc2⟩ hm1 hm2)]
    rfl
  refine ⟨by rw [hmsg]; rfl, ?_, ?_, ?_⟩
  · exact habs 'E' "stimated Budget".data (by decide) (by decide) (by decide) (by decide)
  · exact habs 'K' "ey Requirements".data (by decide) (by decide) (by decide) (by decide)
  · exact habs 'R' "ecommended Solution".data (by decide) (by decide) (by decide) (by decide)

/-- Witness for claim C3 at the domain "data_analysis", which normalizes
to itself and is not a knowledge-base key. -/
theorem c3_witness :
    SOLUTION_KNOWLEDGE_BASE.lookup (normalizeDomain "data_analysis") = none ∧
    (find_automation_solution ⟨"data_analysis", 10, "spreadsheets", none⟩ =
      "I have understood your need for '" ++ normalizeDomain "data_analysis" ++
        "', but I do not have a pre-built solution for that in my database." ∧
    containsStr (find_automation_solution ⟨"data_analysis", 10, "spreadsheets", none⟩)
      "Estimated Budget" = false ∧
    containsStr (find_automation_solution ⟨"data_analysis", 10, "spreadsheets", none⟩)
      "Key Requirements" = false ∧
    containsStr (find_automation_solution ⟨"data_analysis", 10, "spreadsheets", none⟩)
      "Recommended Solution" = false) :=
  ⟨by decide, c3_nomatch_acknowledgment ⟨"data_analysis", 10, "spreadsheets", none⟩ (by decide)⟩

/-! ## Claim C8 -/

/-- Claim C8: the domain normalizer is idempotent; normalizing an already
normalized key changes nothing (proved for every input string, not only
non-empty ones). -/
theorem c8_normalize_idempotent (s : String) :
    normalizeDomain (normalizeDomain s) = normalizeDomain s := by
  simp only [normalizeDomain, data_mk]
  apply congrArg String.mk
  set n := pyStrip (s.data.map lowerChar) with hn
  -- every character of the once-normalized key is fixed by lowerChar
  have hfix : ∀ c ∈ n.map spaceToUnderscore, lowerChar c = c := by
    intro c hc
    obtain ⟨d, hd, rfl⟩ := List.mem_map.1 hc
    obtain ⟨e, _, rfl⟩ := List.mem_map.1 (mem_of_mem_pyStrip hd)
    by_cases hsp : lowerChar e = ' '
    · rw [hsp]; decide
    · rw [show spaceToUnderscore (lowerChar e) = lowerChar e by
        simp [spaceToUnderscore, hsp]]
      exact lowerChar_idem e
  rw [map_eq_self_of_mem hfix]
  -- the once-normalized key has no whitespace at either end
  have hstrip : pyStrip (n.map spaceToUnderscore) = n.map spaceToUnderscore := by
    apply pyStrip_eq_self
    · intro c hc
      rw [List.head?_map] at hc
      cases hh : n.head? with
      | none => rw [hh] at hc; simp at hc
      | some d =>
          rw [hh] at hc
          simp only [Option.map_some', Option.some.injEq] at hc
          subst hc
          exact spaceToUnderscore_not_ws d (pyStrip_head?_not_ws _ d hh)
    · intro c hc
      rw [List.getLast?_map] at hc
      cases hh : n.getLast? with
      | none => rw [hh] at hc; simp at hc
      | some d =>
          rw [hh] at hc
          simp only [Option.map_some', Option.some.injEq] at hc
          subst hc
          exact spaceToUnderscore_not_ws d (pyStrip_getLast?_not_ws _ d hh)
  rw [hstrip]
  -- the once-normalized key contains no space to replace
  apply map_eq_self_of_mem
  intro c hc
  obtain ⟨d, _, rfl⟩ := List.mem_map.1 hc
  exact spaceToUnderscore_idem d

/-! ## Claim C7 -/

theorem hasNonSpace_append_right (seen : List Char) (c : Char)
    (h : hasNonSpace seen = true) : hasNonSpace (seen ++ [c]) = true := by
  unfold hasNonSpace at h ⊢
  rw [List.any_append, h]
  rfl

theorem hasNonSpace_of_getLast? (l : List Char) (d : Char)
    (h : l.getLast? = some d) (hd : d ≠ ' ') : hasNonSpace l = true := by
  unfold hasNonSpace
  rw [List.any_eq_true]
  exact ⟨d, mem_of_getLast?_eq h, by simp [hd]⟩

/-- On a list whose last character is not a space, once a non-space
character has been seen, replacing only internal spaces is the same as
replacing every space. -/
theorem replaceInternalAux_eq_map (l : List Char) :
    ∀ seen, hasNonSpace seen = true → l.getLast? ≠ some ' ' →
      replaceInternalAux seen l = l.map spaceToUnderscore := by
  induction l with
  | nil => intro seen _ _; rfl
  | cons c rest ih =>
      intro seen hseen hlast
      by_cases hr : rest = []
      · subst hr
        have hc : c ≠ ' ' := fun e => hlast (by rw [e]; rfl)
        simp [replaceInternalAux, hc, spaceToUnderscore]
      · obtain ⟨b, t, rfl⟩ := List.exists_cons_of_ne_nil hr
        have hlast' : (b :: t).getLast? ≠ some ' ' := by
          rw [← List.getLast?_cons_cons (a := c)]; exact hlast
        have hNS : hasNonSpace (b :: t) = true := by
          cases hgl : (b :: t).getLast? with
          | none => simp at hgl
          | some d =>
              exact hasNonSpace_of_getLast? _ d hgl (fun e => hlast' (e ▸ hgl))
        have hstep : replaceInternalAux seen (c :: b :: t) =
            (if c == ' ' && hasNonSpace seen && hasNonSpace (b :: t) then '_' else c) ::
              replaceInternalAux (seen ++ [c]) (b :: t) := rfl
        rw [hstep, ih (seen ++ [c]) (hasNonSpace_append_right _ _ hseen) hlast']
        by_cases hc : c = ' '
        · subst hc; simp [hseen, hNS, spaceToUnderscore]
        · simp [hc, spaceToUnderscore]

/-- On a stripped list (no whitespace at either end), replacing internal
spaces coincides with replacing every space. -/
theorem replaceInternal_eq_map_of_stripped (m : List Char) :
    replaceInternalAux [] (pyStrip m) = (pyStrip m).map spaceToUnderscore := by
  cases hcase : pyStrip m with
  | nil => rfl
  | cons c rest =>
      have hc : c ≠ ' ' := by
        have hns := pyStrip_head?_not_ws m c (by rw [hcase]; rfl)
        intro e; subst e; simp [isPyWS] at hns
      by_cases hr : rest = []
      · subst hr
        simp [replaceInternalAux, hc, spaceToUnderscore]
      · have hlast : (c :: rest).getLast? ≠ some ' ' := by
          intro he
          have hns := pyStrip_getLast?_not_ws m ' ' (by rw [hcase]; exact he)
          simp [isPyWS] at hns
        have hseen : hasNonSpace [c] = true := by simp [hasNonSpace, hc]
        have hlast' : rest.getLast? ≠ some ' ' := by
          obtain ⟨b, t, rfl⟩ := List.exists_cons_of_ne_nil hr
          rw [← List.getLast?_cons_cons (a := c)]; exact hlast
        have hstep : replaceInternalAux [] (c :: rest) =
            (if c == ' ' && hasNonSpace [] && hasNonSpace rest then '_' else c) ::
              replaceInternalAux [c] rest := rfl
        rw [hstep, replaceInternalAux_eq_map rest [c] hseen hlast']
        simp [hc, spaceToUnderscore]

/-- Claim C7: the domain normalizer is a total deterministic function on
strings and refines the specification's description: for every input
string, the source's normalizeDomain returns exactly the input lowercased,
stripped of leading and trailing whitespace, with every internal space
character replaced by an underscore (specNormalize). -/
theorem c7_normalizer_refines_spec (s : String) :
    normalizeDomain s = specNormalize s := by
  simp only [normalizeDomain, specNormalize]
  exact congrArg String.mk
    (replaceInternal_eq_map_of_stripped (s.data.map lowerChar)).symm

/-! ## Line-decomposition lemmas -/

theorem splitLines_cons (c : Char) (l : List Char) :
    splitLines (c :: l) =
      if c = '\n' then [] :: splitLines l
      else
        match splitLines l with
        | [] => [[c]]
        | h :: t => (c :: h) :: t := rfl

theorem splitLines_ne_nil (l : List Char) : splitLines l ≠ [] := by
  induction l with
  | nil => simp [splitLines]
  | cons c l _ =>
      rw [splitLines_cons]
      by_cases hc : c = '\n'
      · rw [if_pos hc]; simp
      · rcases hsl : splitLines l with _ | ⟨a, t⟩
        · rw [if_neg hc]; simp
        · rw [if_neg hc]; simp

theorem splitLines_cons_nl (l : List Char) :
    splitLines ('\n' :: l) = [] :: splitLines l := by
  rw [splitLines_cons, if_pos rfl]

theorem splitLines_cons_of_ne (c : Char) (hc : c ≠ '\n') (l : List Char)
    (h : List Char) (t : List (List Char)) (hl : splitLines l = h :: t) :
    splitLines (c :: l) = (c :: h) :: t := by
  rw [splitLines_cons, if_neg hc, hl]

/-- Prepending newline-free text extends the first line. -/
theorem splitLines_append_noNl (a : List Char) (ha : ∀ c ∈ a, c ≠ '\n')
    (l : List Char) (h : List Char) (t : List (List Char))
    (hl : splitLines l = h :: t) :
    splitLines (a ++ l) = (a ++ h) :: t := by
  induction a with
  | nil => simpa using hl
  | cons c a ih =>
      have hc : c ≠ '\n' := ha c (List.mem_cons_self c a)
      have ih' := ih (fun d hd => ha d (List.mem_cons_of_mem _ hd))
      rw [List.cons_append, splitLines_cons_of_ne c hc _ _ _ ih',
        List.cons_append]

theorem splitLines_len_two (a : List Char) (ha : a.getLast? = some '\n') :
    2 ≤ (splitLines a).length := by
  induction a with
  | nil => simp at ha
  | cons c a ih =>
      cases a with
      | nil =>
          simp only [List.getLast?_singleton, Option.some.injEq] at ha
          subst ha
          rw [splitLines_cons_nl]
          simp [splitLines]
      | cons b t =>
          rw [List.getLast?_cons_cons] at ha
          have h2 := ih ha
          by_cases hc : c = '\n'
          · subst hc
            rw [splitLines_cons_nl]
            simp only [List.length_cons]
            omega
          · rcases hsl : splitLines (b :: t) with _ | ⟨h, t'⟩
            · exact absurd hsl (splitLines_ne_nil _)
            · rw [splitLines_cons_of_ne c hc _ _ _ hsl]
              rw [hsl] at h2
              simpa using h2

/-- Prepending a chunk that ends with a newline contributes its own lines
(all but the empty line opened by its final newline). -/
theorem splitLines_append_endsNl (a : List Char) (ha : a.getLast? = some '\n')
    (l : List Char) :
    splitLines (a ++ l) = (splitLines a).dropLast ++ splitLines l := by
  induction a with
  | nil => simp at ha
  | cons c a ih =>
      cases a with
      | nil =>
          simp only [List.getLast?_singleton, Option.some.injEq] at ha
          subst ha
          rw [List.cons_append, List.nil_append, splitLines_cons_nl]
          rfl
      | cons b t =>
          rw [List.getLast?_cons_cons] at ha
          have ih' := ih ha
          by_cases hc : c = '\n'
          · subst hc
            rw [List.cons_append, splitLines_cons_nl, ih', splitLines_cons_nl,
              List.dropLast_cons_of_ne_nil (splitLines_ne_nil _),
              List.cons_append]
          · have h2 := splitLines_len_two (b :: t) ha
            rcases hsl : splitLines (b :: t) with _ | ⟨h1, t1⟩
            · exact absurd hsl (splitLines_ne_nil _)
            · have ht1 : t1 ≠ [] := by
                rw [hsl] at h2
                simp only [List.length_cons] at h2
                intro e
                rw [e] at h2
                simp at h2
              simp only [List.cons_append] at ih' ⊢
              rw [hsl, List.dropLast_cons_of_ne_nil ht1, List.cons_append] at ih'
              rw [splitLines_cons_of_ne c hc _ _ _ ih',
                splitLines_cons_of_ne c hc _ _ _ hsl,
                List.dropLast_cons_of_ne_nil ht1, List.cons_append]

theorem concatMapStr_data {α : Type} (f : α → String) (x : α) (xs : List α) :
    (concatMapStr f (x :: xs)).data = (f x).data ++ (concatMapStr f xs).data := by
  simp [concatMapStr, String.data_append]

theorem data_nl : ("\n" : String).data = ['\n'] := rfl

theorem noNl_append {a b : List Char} (ha : ∀ c ∈ a, c ≠ '\n')
    (hb : ∀ c ∈ b, c ≠ '\n') : ∀ c ∈ a ++ b, c ≠ '\n' := by
  intro c hc
  rcases List.mem_append.1 hc with h | h
  exacts [ha c h, hb c h]

/-- A run of bullet lines contributes one line per element. -/
theorem splitLines_bullets (items : List String)
    (hnl : ∀ i ∈ items, NoNl i) (l : List Char) :
    splitLines ((concatMapStr (fun i => "* " ++ i ++ "\n") items).data ++ l) =
      (items.map fun i => ("* " ++ i).data) ++ splitLines l := by
  induction items with
  | nil => simp [concatMapStr]
  | cons i items ih =>
      rw [concatMapStr_data]
      have hre :
          ("* " ++ i ++ "\n").data ++
            ((concatMapStr (fun i => "* " ++ i ++ "\n") items).data ++ l) =
          ("* ".data ++ i.data) ++
            ('\n' :: ((concatMapStr (fun i => "* " ++ i ++ "\n") items).data ++ l)) := by
        simp [String.data_append, data_nl, List.append_assoc]
      rw [List.append_assoc, hre,
        splitLines_append_noNl ("* ".data ++ i.data)
          (noNl_append (by decide) (hnl i (List.mem_cons_self i items))) _ _ _
          (splitLines_cons_nl _),
        ih (fun j hj => hnl j (List.mem_cons_of_mem _ hj))]
      simp [String.data_append]

theorem str_eq_of_data {s t : String} (h : s.data = t.data) : s = t := by
  cases s; cases t; exact congrArg String.mk h

theorem mk_data_eq (s : String) : (⟨s.data⟩ : String) = s := rfl

theorem mk_nil_eq : (⟨[]⟩ : String) = "" := rfl

theorem data_append_rev (s t : String) : s.data ++ t.data = (s ++ t).data :=
  (String.data_append s t).symm

theorem head_of_append (p x : String) (c : Char) (hp : p.data.head? = some c) :
    (p ++ x).data.head? = some c := by
  rw [String.data_append]
  cases hd : p.data with
  | nil => rw [hd] at hp; simp at hp
  | cons a t =>
      rw [hd] at hp
      simpa using hp

/-- A line that does not start with a number sign is not a section
header. -/
theorem line_not_header (s : String) (hs : s.data.head? ≠ some '#') :
    s ∉ sectionHeaders := by
  intro h
  simp only [sectionHeaders, List.mem_cons, List.not_mem_nil, or_false] at h
  rcases h with e | e | e | e | e | e | e | e <;> (subst e; exact hs rfl)

theorem headI_cons_eq {α : Type} [Inhabited α] (a : α) (l : List α) :
    (a :: l).headI = a := rfl

theorem str_append_assoc (a b c : String) : (a ++ b) ++ c = a ++ (b ++ c) :=
  str_eq_of_data (by simp [String.data_append, List.append_assoc])

/-- Prepending newline-free text extends the first line (headI form, no
precomputed decomposition of the remainder needed). -/
theorem splitLines_append_noNl2 (a : List Char) (ha : ∀ c ∈ a, c ≠ '\n')
    (l : List Char) :
    splitLines (a ++ l) = (a ++ (splitLines l).headI) :: (splitLines l).tail := by
  rcases hsl : splitLines l with _ | ⟨h, t⟩
  · exact absurd hsl (splitLines_ne_nil _)
  · rw [splitLines_append_noNl a ha l h t hsl]
    rfl

theorem bullet_pref_not_header (p x : String) (c : Char)
    (hp : p.data.head? = some c) (hc : c ≠ '#') : (p ++ x) ∉ sectionHeaders :=
  line_not_header _ (by rw [head_of_append p x c hp]; simp [hc])

/-! ## Claim C6 -/

theorem concat_bullets_inOrder (reqs : List String) (tail : List Char) :
    InOrder ((concatMapStr (fun r => "* " ++ r ++ "\n") reqs).data ++ tail)
      (reqs.map fun r => ("* " ++ r ++ "\n").data) := by
  induction reqs with
  | nil => exact InOrder.nil _
  | cons r rs ih =>
      exact inOrder_of_eq
        (InOrder.cons [] (("* " ++ r ++ "\n").data)
          ((concatMapStr (fun r => "* " ++ r ++ "\n") rs).data ++ tail) _ ih)
        (by simp [concatMapStr, String.data_append, List.append_assoc])

theorem renderSolutionBlock_inOrder (sol : Solution) :
    InOrder (renderSolutionBlock sol).data (blockPats sol) := by
  have hb := concat_bullets_inOrder sol.key_requirements ("---\n".data)
  have hreq :=
    (hb.append_left ("**Key Requirements (from URS):**\n".data)).append_left
      ("\n".data)
  have hbud := InOrder.cons ("**Estimated Budget:** ".data) sol.avg_budget.data
    _ _ hreq
  have hdesc := InOrder.cons ("**What it does:** ".data) sol.description.data
    _ _ (hbud.append_left ("\n".data))
  have hname := InOrder.cons ("### ✅ Recommended Solution: ".data)
    sol.solution_name.data _ _ (hdesc.append_left ("\n".data))
  exact inOrder_of_eq hname
    (by simp [renderSolutionBlock, String.data_append, List.append_assoc])

theorem concat_blocks_inOrder (sols : List Solution) (tail : List Char) :
    InOrder ((concatMapStr renderSolutionBlock sols).data ++ tail)
      ((sols.map blockPats).flatten) := by
  induction sols with
  | nil => exact InOrder.nil _
  | cons s ss ih =>
      exact inOrder_of_eq ((renderSolutionBlock_inOrder s).append ih)
        (by simp [concatMapStr, String.data_append, List.append_assoc])

set_option maxRecDepth 20000 in
/-- Claim C6: for every TriageRecord whose normalized domain is a catalog
key, the rendered matched report presents, in order: a header restating
the normalized domain, the requested throughput and the current process
verbatim; then, per descriptor in catalog order, a block presenting name,
description, budget range and every key requirement on a bullet line of
its own; then the closing invitation sentence, with which the report
ends. -/
theorem c6_matched_report_structure (rec : LabRequirements)
    (sols : List Solution)
    (h : SOLUTION_KNOWLEDGE_BASE.lookup (normalizeDomain rec.problem_domain) =
      some sols) :
    InOrder (find_automation_solution rec).data
      ((normalizeDomain rec.problem_domain).data ::
        (toString rec.samples_per_day).data :: rec.current_process.data ::
        ((sols.map blockPats).flatten ++
          ["\nThis proposal is a starting point. We can now dive deeper into specific products.".data])) ∧
    ∃ pre : String, find_automation_solution rec =
      pre ++ "\nThis proposal is a starting point. We can now dive deeper into specific products." := by
  have hout : find_automation_solution rec =
      matchedReport (normalizeDomain rec.problem_domain) rec.samples_per_day
        rec.current_process sols := by
    simp [find_automation_solution, h]
  constructor
  · have hclose : InOrder
        ("\nThis proposal is a starting point. We can now dive deeper into specific products.".data)
        ["\nThis proposal is a starting point. We can now dive deeper into specific products.".data] :=
      inOrder_of_eq (InOrder.cons [] _ [] [] (InOrder.nil [])) (by simp)
    have hblocks :=
      (concat_blocks_inOrder sols []).append hclose
    have htail :=
      hblocks.append_left
        ("' process), I have identified the following automation solutions from my URS knowledge base:\n\n".data)
    have hcp := InOrder.cons (" samples/day** using a '".data)
      rec.current_process.data _ _ htail
    have hthr := InOrder.cons ("** (processing **".data)
      (toString rec.samples_per_day).data _ _ hcp
    have hdom := InOrder.cons
      ("--- 🤖 AI Consultant: Solution Proposal --- \n\n".data ++
        "Based on your bottleneck with **".data)
      (normalizeDomain rec.problem_domain).data _ _ hthr
    exact inOrder_of_eq hdom
      (by rw [hout]; simp [matchedReport, String.data_append, List.append_assoc])
  · refine ⟨"--- 🤖 AI Consultant: Solution Proposal --- \n\n" ++
      ("Based on your bottleneck with **" ++ normalizeDomain rec.problem_domain ++
        "** (processing **" ++ toString rec.samples_per_day ++
        " samples/day** using a '" ++ rec.current_process ++
        "' process), I have identified the following automation solutions from my URS knowledge base:\n\n") ++
      concatMapStr renderSolutionBlock sols, ?_⟩
    rw [hout]
    rfl

set_option maxRecDepth 20000 in
/-- Witness for claim C6 at a record whose domain normalizes to
sample_handling_logistics. -/
theorem c6_witness :
    SOLUTION_KNOWLEDGE_BASE.lookup
      (normalizeDomain "Sample Handling Logistics") = some [APL07, APL08] ∧
    (InOrder
      (find_automation_solution
        ⟨"Sample Handling Logistics", 100, "manually moving tubes between racks", none⟩).data
      ((normalizeDomain "Sample Handling Logistics").data ::
        (toString (100 : Int)).data ::
        "manually moving tubes between racks".data ::
        (([APL07, APL08].map blockPats).flatten ++
          ["\nThis proposal is a starting point. We can now dive deeper into specific products.".data])) ∧
    ∃ pre : String,
      find_automation_solution
        ⟨"Sample Handling Logistics", 100, "manually moving tubes between racks", none⟩ =
        pre ++ "\nThis proposal is a starting point. We can now dive deeper into specific products.") :=
  ⟨by decide,
   c6_matched_report_structure
     ⟨"Sample Handling Logistics", 100, "manually moving tubes between racks", none⟩
     [APL07, APL08] (by decide)⟩

/-! ## Claim C4 -/

set_option maxRecDepth 10000 in
/-- Claim C4: for the TriageRecord with problem_domain "Weighing",
samples_per_day 84 and current_process "manual weighing", the domain
normalizes to "weighing", the matcher finds exactly the two descriptors
APL01 and APL02 bearing the claimed names and budget ranges, and the
rendered report contains both names and both budget ranges with the first
descriptor's material appearing before the second's. -/
theorem c4_weighing_scenario :
    normalizeDomain "Weighing" = "weighing" ∧
    SOLUTION_KNOWLEDGE_BASE.lookup (normalizeDomain "Weighing") =
      some [APL01, APL02] ∧
    APL01.solution_name = "Automated Weighing Station (URS APL01)" ∧
    APL02.solution_name = "Manual Computer-Assisted Weighing Station (URS APL02)" ∧
    APL01.avg_budget = "$70,000 - $200,000" ∧
    APL02.avg_budget = "$10,000 - $40,000" ∧
    containsInOrder
      (find_automation_solution ⟨"Weighing", 84, "manual weighing", none⟩)
      ["Automated Weighing Station (URS APL01)", "$70,000 - $200,000",
       "Manual Computer-Assisted Weighing Station (URS APL02)",
       "$10,000 - $40,000"] = true :=
  ⟨by decide, by decide, rfl, rfl, rfl, rfl, by decide⟩

theorem map_mk_data (l : List String) :
    (l.map String.data).map (fun d => (⟨d⟩ : String)) = l := by
  induction l with
  | nil => rfl
  | cons a t ih => simp only [List.map_cons, ih]

/-! ## Claim C5 -/

set_option maxRecDepth 40000 in
/-- Claim C5 (amended): rendering any valid StationSpecRecord whose field
values contain no newline character produces a document whose lines
include the eight section headers exactly once each, numbered 1 through 8
in the exact order, with no other line being a section header; each scalar
field renders as a single bullet line under its section and each sequence
field renders one bullet line per element preserving input order. -/
theorem c5_spec_document_sections (u : WeighingStationURS) (hnl : SpecNoNl u)
    (_hne : u.chemical_types ≠ [] ∧ u.labware_containers ≠ [] ∧
      u.workflow_use_cases ≠ []) :
    ∃ p0 p1 p2 p3 p4 p5 p6 p7 p8 : List String,
      linesOf (generate_weighing_station_urs u) =
        p0 ++ "### 1. Project Scope" ::
          (p1 ++ "### 2. Throughput" ::
            (p2 ++ "### 3. Weighing Specifications" ::
              (p3 ++ "### 4. Categories of Chemicals" ::
                (p4 ++ "### 5. Labware" ::
                  (p5 ++ "### 6. Identification & Labeling" ::
                    (p6 ++ "### 7. Input/Output Data" ::
                      (p7 ++ "### 8. Workflows / Use Cases" :: p8))))))) ∧
      (∀ l ∈ p0, l ∉ sectionHeaders) ∧ (∀ l ∈ p1, l ∉ sectionHeaders) ∧
      (∀ l ∈ p2, l ∉ sectionHeaders) ∧ (∀ l ∈ p3, l ∉ sectionHeaders) ∧
      (∀ l ∈ p4, l ∉ sectionHeaders) ∧ (∀ l ∈ p5, l ∉ sectionHeaders) ∧
      (∀ l ∈ p6, l ∉ sectionHeaders) ∧ (∀ l ∈ p7, l ∉ sectionHeaders) ∧
      (∀ l ∈ p8, l ∉ sectionHeaders) ∧
      ("* " ++ u.project_scope) ∈ p1 ∧
      ("* " ++ u.throughput ++ " [cite: 562]") ∈ p2 ∧
      ("* **Range & Precision:** " ++ u.weighing_specs ++ " [cite: 554]") ∈ p3 ∧
      (∃ q r, p4 = q ++ u.chemical_types.map (fun i => "* " ++ i) ++ r) ∧
      (∃ q r, p5 = q ++ u.labware_containers.map (fun i => "* " ++ i) ++ r) ∧
      ("* " ++ u.identification_labeling ++ " [cite: 560]") ∈ p6 ∧
      ("* " ++ u.data_handling ++ " [cite: 566]") ∈ p7 ∧
      (∃ q r, p8 = q ++ u.workflow_use_cases.map (fun i => "* " ++ i) ++ r) := by
  obtain ⟨hsc, hth, hws, hchem, hlab, hid, hdh, hwf⟩ := hnl
  have hsplit : splitLines ((generate_weighing_station_urs u).data) =
      ((["--- 📋 AI Consultant: Generated URS Document (APL01-Draft) --- ", "",
        "Thank you. Based on our interview, I have drafted the following User Requirements Specification (URS) for the new **Automated Weighing Station**.", "",
        "### 1. Project Scope",
        "* " ++ u.project_scope, "",
        "### 2. Throughput",
        "* " ++ u.throughput ++ " [cite: 562]", "",
        "### 3. Weighing Specifications",
        "* **Range & Precision:** " ++ u.weighing_specs ++ " [cite: 554]", "",
        "### 4. Categories of Chemicals",
        "The system must handle: [cite: 556]"] ++
       (u.chemical_types.map (fun i => "* " ++ i) ++
       (["", "### 5. Labware", "The system must handle: [cite: 558]"] ++
       (u.labware_containers.map (fun i => "* " ++ i) ++
       (["", "### 6. Identification & Labeling",
         "* " ++ u.identification_labeling ++ " [cite: 560]", "",
         "### 7. Input/Output Data",
         "* " ++ u.data_handling ++ " [cite: 566]", "",
         "### 8. Workflows / Use Cases",
         "The system must support: [cite: 568]"] ++
       (u.workflow_use_cases.map (fun i => "* " ++ i) ++
       ["", "---",
        "This draft can now be used for the 'Solution Finding' phase."])))))) : List String).map
        String.data := by
    have hdata : (generate_weighing_station_urs u).data =
        "--- 📋 AI Consultant: Generated URS Document (APL01-Draft) --- \n\n".data ++
        ("Thank you. Based on our interview, I have drafted the following User Requirements Specification (URS) for the new **Automated Weighing Station**.\n\n".data ++
        ("### 1. Project Scope\n".data ++
        (("* ".data ++ u.project_scope.data) ++
        ("\n\n".data ++
        ("### 2. Throughput\n".data ++
        (("* ".data ++ u.throughput.data) ++
        (" [cite: 562]\n\n".data ++
        ("### 3. Weighing Specifications\n".data ++
        (("* **Range & Precision:** ".data ++ u.weighing_specs.data) ++
        (" [cite: 554]\n\n".data ++
        ("### 4. Categories of Chemicals\n".data ++
        ("The system must handle: [cite: 556]\n".data ++
        ((concatMapStr (fun item => "* " ++ item ++ "\n") u.chemical_types).data ++
        ("\n".data ++
        ("### 5. Labware\n".data ++
        ("The system must handle: [cite: 558]\n".data ++
        ((concatMapStr (fun item => "* " ++ item ++ "\n") u.labware_containers).data ++
        ("\n".data ++
        ("### 6. Identification & Labeling\n".data ++
        (("* ".data ++ u.identification_labeling.data) ++
        (" [cite: 560]\n\n".data ++
        ("### 7. Input/Output Data\n".data ++
        (("* ".data ++ u.data_handling.data) ++
        (" [cite: 566]\n\n".data ++
        ("### 8. Workflows / Use Cases\n".data ++
        ("The system must support: [cite: 568]\n".data ++
        ((concatMapStr (fun item => "* " ++ item ++ "\n") u.workflow_use_cases).data ++
        ("\n---\n".data ++
        "This draft can now be used for the 'Solution Finding' phase.".data)))))))))))))))))))))))))))) := by
      simp [generate_weighing_station_urs, String.data_append, List.append_assoc]
    rw [hdata]
    rw [splitLines_append_endsNl
        "--- 📋 AI Consultant: Generated URS Document (APL01-Draft) --- \n\n".data
        (by decide),
      splitLines_append_endsNl
        "Thank you. Based on our interview, I have drafted the following User Requirements Specification (URS) for the new **Automated Weighing Station**.\n\n".data
        (by decide),
      splitLines_append_endsNl "### 1. Project Scope\n".data (by decide),
      splitLines_append_noNl2 ("* ".data ++ u.project_scope.data)
        (noNl_append (by decide) hsc),
      splitLines_append_endsNl "\n\n".data (by decide),
      splitLines_append_endsNl "### 2. Throughput\n".data (by decide),
      splitLines_append_noNl2 ("* ".data ++ u.throughput.data)
        (noNl_append (by decide) hth),
      splitLines_append_endsNl " [cite: 562]\n\n".data (by decide),
      splitLines_append_endsNl "### 3. Weighing Specifications\n".data (by decide),
      splitLines_append_noNl2
        ("* **Range & Precision:** ".data ++ u.weighing_specs.data)
        (noNl_append (by decide) hws),
      splitLines_append_endsNl " [cite: 554]\n\n".data (by decide),
      splitLines_append_endsNl "### 4. Categories of Chemicals\n".data (by decide),
      splitLines_append_endsNl "The system must handle: [cite: 556]\n".data
        (by decide),
      splitLines_bullets u.chemical_types hchem,
      splitLines_append_endsNl "\n".data (by decide),
      splitLines_append_endsNl "### 5. Labware\n".data (by decide),
      splitLines_append_endsNl "The system must handle: [cite: 558]\n".data
        (by decide),
      splitLines_bullets u.labware_containers hlab,
      splitLines_append_endsNl "\n".data (by decide),
      splitLines_append_endsNl "### 6. Identification & Labeling\n".data
        (by decide),
      splitLines_append_noNl2 ("* ".data ++ u.identification_labeling.data)
        (noNl_append (by decide) hid),
      splitLines_append_endsNl " [cite: 560]\n\n".data (by decide),
      splitLines_append_endsNl "### 7. Input/Output Data\n".data (by decide),
      splitLines_append_noNl2 ("* ".data ++ u.data_handling.data)
        (noNl_append (by decide) hdh),
      splitLines_append_endsNl " [cite: 566]\n\n".data (by decide),
      splitLines_append_endsNl "### 8. Workflows / Use Cases\n".data (by decide),
      splitLines_append_endsNl "The system must support: [cite: 568]\n".data
        (by decide),
      splitLines_bullets u.workflow_use_cases hwf,
      splitLines_append_endsNl "\n---\n".data (by decide)]
    rw [show splitLines
          "This draft can now be used for the 'Solution Finding' phase.".data =
        ["This draft can now be used for the 'Solution Finding' phase.".data]
        from by decide,
      show (splitLines
          "--- 📋 AI Consultant: Generated URS Document (APL01-Draft) --- \n\n".data).dropLast =
        ["--- 📋 AI Consultant: Generated URS Document (APL01-Draft) --- ".data, []]
        from by decide,
      show (splitLines
          "Thank you. Based on our interview, I have drafted the following User Requirements Specification (URS) for the new **Automated Weighing Station**.\n\n".data).dropLast =
        ["Thank you. Based on our interview, I have drafted the following User Requirements Specification (URS) for the new **Automated Weighing Station**.".data, []]
        from by decide,
      show (splitLines "### 1. Project Scope\n".data).dropLast =
        ["### 1. Project Scope".data] from by decide,
      show (splitLines "\n\n".data).dropLast = [[], []] from by decide,
      show (splitLines "### 2. Throughput\n".data).dropLast =
        ["### 2. Throughput".data] from by decide,
      show (splitLines " [cite: 562]\n\n".data).dropLast =
        [" [cite: 562]".data, []] from by decide,
      show (splitLines "### 3. Weighing Specifications\n".data).dropLast =
        ["### 3. Weighing Specifications".data] from by decide,
      show (splitLines " [cite: 554]\n\n".data).dropLast =
        [" [cite: 554]".data, []] from by decide,
      show (splitLines "### 4. Categories of Chemicals\n".data).dropLast =
        ["### 4. Categories of Chemicals".data] from by decide,
      show (splitLines "The system must handle: [cite: 556]\n".data).dropLast =
        ["The system must handle: [cite: 556]".data] from by decide,
      show (splitLines "\n".data).dropLast = [[]] from by decide,
      show (splitLines "### 5. Labware\n".data).dropLast =
        ["### 5. Labware".data] from by decide,
      show (splitLines "The system must handle: [cite: 558]\n".data).dropLast =
        ["The system must handle: [cite: 558]".data] from by decide,
      show (splitLines "### 6. Identification & Labeling\n".data).dropLast =
        ["### 6. Identification & Labeling".data] from by decide,
      show (splitLines " [cite: 560]\n\n".data).dropLast =
        [" [cite: 560]".data, []] from by decide,
      show (splitLines "### 7. Input/Output Data\n".data).dropLast =
        ["### 7. Input/Output Data".data] from by decide,
      show (splitLines " [cite: 566]\n\n".data).dropLast =
        [" [cite: 566]".data, []] from by decide,
      show (splitLines "### 8. Workflows / Use Cases\n".data).dropLast =
        ["### 8. Workflows / Use Cases".data] from by decide,
      show (splitLines "The system must support: [cite: 568]\n".data).dropLast =
        ["The system must support: [cite: 568]".data] from by decide,
      show (splitLines "\n---\n".data).dropLast = [[], "---".data]
        from by decide]
    simp only [List.map_append, List.map_cons, List.map_nil, List.map_map,
      Function.comp_def, String.data_append, List.cons_append, List.nil_append,
      List.append_assoc, List.append_nil, headI_cons_eq, List.tail_cons]
  refine ⟨["--- 📋 AI Consultant: Generated URS Document (APL01-Draft) --- ", "",
      "Thank you. Based on our interview, I have drafted the following User Requirements Specification (URS) for the new **Automated Weighing Station**.", ""],
    ["* " ++ u.project_scope, ""],
    ["* " ++ u.throughput ++ " [cite: 562]", ""],
    ["* **Range & Precision:** " ++ u.weighing_specs ++ " [cite: 554]", ""],
    "The system must handle: [cite: 556]" ::
      (u.chemical_types.map (fun i => "* " ++ i) ++ [""]),
    "The system must handle: [cite: 558]" ::
      (u.labware_containers.map (fun i => "* " ++ i) ++ [""]),
    ["* " ++ u.identification_labeling ++ " [cite: 560]", ""],
    ["* " ++ u.data_handling ++ " [cite: 566]", ""],
    "The system must support: [cite: 568]" ::
      (u.workflow_use_cases.map (fun i => "* " ++ i) ++
        ["", "---", "This draft can now be used for the 'Solution Finding' phase."]),
    ?_, ?_, ?_, ?_, ?_, ?_, ?_, ?_, ?_, ?_, ?_, ?_, ?_, ?_, ?_, ?_, ?_, ?_⟩
  · unfold linesOf
    rw [hsplit, map_mk_data]
    simp only [List.cons_append, List.nil_append, List.append_assoc]
  · intro l hl
    simp only [List.mem_cons, List.not_mem_nil, or_false] at hl
    rcases hl with rfl | rfl | rfl | rfl <;> decide
  · intro l hl
    simp only [List.mem_cons, List.not_mem_nil, or_false] at hl
    rcases hl with rfl | rfl
    · exact bullet_pref_not_header "* " _ '*' rfl (by decide)
    · decide
  · intro l hl
    simp only [List.mem_cons, List.not_mem_nil, or_false] at hl
    rcases hl with rfl | rfl
    · exact bullet_pref_not_header _ _ '*' (head_of_append "* " _ '*' rfl)
        (by decide)
    · decide
  · intro l hl
    simp only [List.mem_cons, List.not_mem_nil, or_false] at hl
    rcases hl with rfl | rfl
    · exact bullet_pref_not_header _ _ '*'
        (head_of_append "* **Range & Precision:** " _ '*' rfl) (by decide)
    · decide
  · intro l hl
    simp only [List.mem_cons, List.mem_append, List.mem_map,
      List.not_mem_nil, or_false] at hl
    rcases hl with rfl | ⟨i, _, rfl⟩ | rfl
    · decide
    · exact bullet_pref_not_header "* " _ '*' rfl (by decide)
    · decide
  · intro l hl
    simp only [List.mem_cons, List.mem_append, List.mem_map,
      List.not_mem_nil, or_false] at hl
    rcases hl with rfl | ⟨i, _, rfl⟩ | rfl
    · decide
    · exact bullet_pref_not_header "* " _ '*' rfl (by decide)
    · decide
  · intro l hl
    simp only [List.mem_cons, List.not_mem_nil, or_false] at hl
    rcases hl with rfl | rfl
    · exact bullet_pref_not_header _ _ '*' (head_of_append "* " _ '*' rfl)
        (by decide)
    · decide
  · intro l hl
    simp only [List.mem_cons, List.not_mem_nil, or_false] at hl
    rcases hl with rfl | rfl
    · exact bullet_pref_not_header _ _ '*' (head_of_append "* " _ '*' rfl)
        (by decide)
    · decide
  · intro l hl
    simp only [List.mem_cons, List.mem_append, List.mem_map,
      List.not_mem_nil, or_false] at hl
    rcases hl with rfl | ⟨i, _, rfl⟩ | rfl | rfl | rfl
    · decide
    · exact bullet_pref_not_header "* " _ '*' rfl (by decide)
    · decide
    · decide
    · decide
  · exact List.mem_cons_self _ _
  · exact List.mem_cons_self _ _
  · exact List.mem_cons_self _ _
  · exact ⟨["The system must handle: [cite: 556]"], [""],
      by simp [List.cons_append, List.append_assoc]⟩
  · exact ⟨["The system must handle: [cite: 558]"], [""],
      by simp [List.cons_append, List.append_assoc]⟩
  · exact List.mem_cons_self _ _
  · exact List.mem_cons_self _ _
  · exact ⟨["The system must support: [cite: 568]"],
      ["", "---", "This draft can now be used for the 'Solution Finding' phase."],
      by simp [List.cons_append, List.append_assoc]⟩

set_option maxRecDepth 100000 in
/-- Claim C5, counterexample to the claim as stated: a valid
StationSpecRecord whose project_scope contains a newline followed by the
text of the second section header renders to a document in which the line
"### 2. Throughput" appears twice, not exactly once. -/
theorem c5_counterexample :
    List.countP (fun l => l == "### 2. Throughput")
      (linesOf (generate_weighing_station_urs
        ⟨"x\n### 2. Throughput", "x", "x", ["x"], ["x"], "x", "x", ["x"]⟩)) = 2 := by
  decide

set_option maxRecDepth 40000 in
/-- Witness for claim C5's amended theorem at a concrete newline-free
record. -/
theorem c5_witness :
    SpecNoNl ⟨"Automate weighing", "84 compounds per day", "0.2mg - 100g",
      ["Powder", "Flakes"], ["Vials"], "Barcodes", "CSV", ["one-to-many"]⟩ ∧
    (∃ p0 p1 p2 p3 p4 p5 p6 p7 p8 : List String,
      linesOf (generate_weighing_station_urs
        ⟨"Automate weighing", "84 compounds per day", "0.2mg - 100g",
          ["Powder", "Flakes"], ["Vials"], "Barcodes", "CSV", ["one-to-many"]⟩) =
        p0 ++ "### 1. Project Scope" ::
          (p1 ++ "### 2. Throughput" ::
            (p2 ++ "### 3. Weighing Specifications" ::
              (p3 ++ "### 4. Categories of Chemicals" ::
                (p4 ++ "### 5. Labware" ::
                  (p5 ++ "### 6. Identification & Labeling" ::
                    (p6 ++ "### 7. Input/Output Data" ::
                      (p7 ++ "### 8. Workflows / Use Cases" :: p8))))))) ∧
      (∀ l ∈ p0, l ∉ sectionHeaders) ∧ (∀ l ∈ p1, l ∉ sectionHeaders) ∧
      (∀ l ∈ p2, l ∉ sectionHeaders) ∧ (∀ l ∈ p3, l ∉ sectionHeaders) ∧
      (∀ l ∈ p4, l ∉ sectionHeaders) ∧ (∀ l ∈ p5, l ∉ sectionHeaders) ∧
      (∀ l ∈ p6, l ∉ sectionHeaders) ∧ (∀ l ∈ p7, l ∉ sectionHeaders) ∧
      (∀ l ∈ p8, l ∉ sectionHeaders) ∧
      ("* " ++ "Automate weighing") ∈ p1 ∧
      ("* " ++ "84 compounds per day" ++ " [cite: 562]") ∈ p2 ∧
      ("* **Range & Precision:** " ++ "0.2mg - 100g" ++ " [cite: 554]") ∈ p3 ∧
      (∃ q r, p4 = q ++ ["Powder", "Flakes"].map (fun i => "* " ++ i) ++ r) ∧
      (∃ q r, p5 = q ++ ["Vials"].map (fun i => "* " ++ i) ++ r) ∧
      ("* " ++ "Barcodes" ++ " [cite: 560]") ∈ p6 ∧
      ("* " ++ "CSV" ++ " [cite: 566]") ∈ p7 ∧
      (∃ q r, p8 = q ++ ["one-to-many"].map (fun i => "* " ++ i) ++ r)) :=
  ⟨by decide,
   c5_spec_document_sections
     ⟨"Automate weighing", "84 compounds per day", "0.2mg - 100g",
       ["Powder", "Flakes"], ["Vials"], "Barcodes", "CSV", ["one-to-many"]⟩
     (by decide) (by decide)⟩

/-! ## Claim C9 -/

/-- Claim C9: ValidationError is local to construction; for every
already-constructed TriageRecord, matching plus rendering never reaches an
error branch (the one fallible operation, the dict subscription, is
guarded), and for every already-constructed StationSpecRecord the renderer
returns a string outright. -/
theorem c9_no_error_after_construction (r : LabRequirements)
    (u : WeighingStationURS) :
    find_automation_solutionE r = Except.ok (find_automation_solution r) ∧
    ∃ s : String, generate_weighing_station_urs u = s := by
  refine ⟨?_, ⟨_, rfl⟩⟩
  unfold find_automation_solutionE find_automation_solution dictGetSolutions
  cases h : SOLUTION_KNOWLEDGE_BASE.lookup (normalizeDomain r.problem_domain) <;>
    simp [h]
  rfl

/-! ## Claim C10 -/

/-- Claim C10: the optional budget field of a TriageRecord never
influences the output of match-and-render; two records equal in
problem_domain, samples_per_day and current_process but with different
budgets render to identical strings. -/
theorem c10_budget_noninterference (pd : String) (spd : Int) (cp : String)
    (b1 b2 : Option String) :
    find_automation_solution ⟨pd, spd, cp, b1⟩ =
      find_automation_solution ⟨pd, spd, cp, b2⟩ := rfl

end LabAutomation
